import Mathlib

/-!
Shallow embedding of the prediction-market whale tracker (goldsky.py,
main.py, polymarket.py) and verification of the frozen claims about its
specification.

Modelling conventions:
- Python floats on the values exercised here (USDC amounts, prices, sizes)
  are modelled as rationals (ℚ); every concrete value appearing in the
  claims is exactly representable in binary floating point, so ℚ is a
  faithful model of the arithmetic the code performs on them.
- A Python dict record is a structure; a field whose key may be absent is
  an `Option` (a missing key raises `KeyError`, modelled as `none`
  propagating to an `Option.none` result for the whole batch, mirroring
  the absence of any per-record exception handler in the code).
- Network calls are modelled by passing the upstream's outcome
  (`Except String _`) as an argument; an uncaught Python exception is an
  `Option.none` / `Except.error` result, and a function with a plain
  (non-`Option`) result type models code that cannot raise.
-/

namespace Tracker

/-- WHALE_THRESHOLD_USD = 50000 (goldsky.py line 18, main.py line 14). -/
def WHALE_THRESHOLD_USD : ℚ := 50000

/-- ALERT_THRESHOLD_USD = 100000 (goldsky.py line 19). -/
def ALERT_THRESHOLD_USD : ℚ := 100000

/-- THRESHOLD_USD = 7500 (polymarket.py line 9). -/
def THRESHOLD_USD : ℚ := 7500

/-! ## polymarket.py: REST polling loop with seen-set deduplication -/

/-- A raw record of the REST trades feed (polymarket.py). Only the fields
the polling loop reads before printing are modelled; each is `Option`
because the dict access `t[...]` raises `KeyError` when the key is absent. -/
structure PolyRecord where
  transactionHash : Option String
  price : Option ℚ
  size : Option ℚ
deriving DecidableEq

/-- A printed trade of polymarket.py's `print_trade`: its identifier is the
raw `transactionHash`, its notional the computed `usd_value`. -/
structure PolyTrade where
  tx : String
  usd_value : ℚ
deriving DecidableEq

/-- One pass of the `for t in trades` body of polymarket.py `main`
(lines 46-56): look the transaction hash up in `seen`, skip if present,
otherwise insert it, compute `usd_value = price * size` and print the trade
when it reaches THRESHOLD_USD. Returns the final seen set and the emitted
trades in order, or `none` when a required key is missing (the `KeyError`
propagates and aborts the loop). -/
def pollCycle : List String → List PolyRecord → Option (List String × List PolyTrade)
  | seen, [] => some (seen, [])
  | seen, t :: ts =>
    match t.transactionHash with
    | none => none
    | some tx =>
      if tx ∈ seen then
        pollCycle seen ts
      else
        match t.price, t.size with
        | some p, some s =>
          match pollCycle (tx :: seen) ts with
          | none => none
          | some (seen2, emitted) =>
            if THRESHOLD_USD ≤ p * s then some (seen2, ⟨tx, p * s⟩ :: emitted)
            else some (seen2, emitted)
        | _, _ => none

/-! ## main.py: fetch_whale_trades and track_whales -/

/-- A raw record of the `trades` GraphQL query in main.py (the nested
`market { question }` is flattened into `question`). -/
structure GraphTrade where
  amount : ℚ
  account : String
  question : String
  timestamp : String
deriving DecidableEq

/-- A normalized whale dict appended by main.py `fetch_whale_trades`. -/
structure Whale where
  wallet : String
  amount_usd : ℚ
  market : String
  timestamp : String
deriving DecidableEq

/-- Descending-by-`amount_usd` order used by
`sorted(whales, key=lambda x: x['amount_usd'], reverse=True)`. -/
def descByAmount (a b : Whale) : Prop := b.amount_usd ≤ a.amount_usd

instance : DecidableRel descByAmount := fun a b =>
  inferInstanceAs (Decidable (b.amount_usd ≤ a.amount_usd))

instance : IsTotal Whale descByAmount :=
  ⟨fun a b => le_total b.amount_usd a.amount_usd⟩

instance : IsTrans Whale descByAmount :=
  ⟨fun _ _ _ h1 h2 => le_trans h2 h1⟩

/-- main.py `fetch_whale_trades` (lines 42-59): the upstream response is the
`result_trades` argument; `market_id` and `since_ts` are the function's other
parameters (`since_ts` is only forwarded to the upstream query, whose
response is already given). Keeps trades with `amount >= WHALE_THRESHOLD_USD`,
normalizes them, sorts descending by `amount_usd` and truncates to 10. -/
def fetch_whale_trades (market_id : String) (since_ts : Nat)
    (result_trades : List GraphTrade) : List Whale :=
  let whales := result_trades.filterMap fun trade =>
    if WHALE_THRESHOLD_USD ≤ trade.amount then
      some ⟨trade.account, trade.amount, trade.question.take 50 ++ "...", trade.timestamp⟩
    else none
  (List.insertionSort descByAmount whales).take 10

/-- Default of the `since` parameter of main.py `track_whales` (line 62):
`int((time.time() - 3600) * 1000)`, with `now` the current epoch time in
seconds. -/
def default_since_main (now : Nat) : Nat := (now - 3600) * 1000

/-! ## goldsky.py: normalization, display loop, alerts, source router -/

/-- A raw `fixedProductMarketMakers` record of the state subgraph
(goldsky.py); the nested `buyer { id }` and `market { question }` are
flattened. Fields are `Option` because `trade[...]` raises `KeyError` when
the key is absent. -/
structure FPMMRecord where
  investmentAmount : Option ℚ
  buyer_id : Option String
  market_question : Option String
  timestamp : Option String
deriving DecidableEq

/-- A normalized whale-trade dict built in goldsky.py `update_display`
(lines 148-153). It has no `id` field: only wallet, size, market label and
timestamp are retained. -/
structure GTrade where
  wallet : String
  size_usd : ℚ
  market : String
  timestamp : String
deriving DecidableEq

/-- One iteration of the processing loop of goldsky.py `update_display`
(lines 146-153): `size_usd = float(trade['investmentAmount']) / 1e6`,
wallet from `buyer.id`, market label from `question[:50] + '...'`. `none`
models the `KeyError` raised on a missing key. -/
def normalizeTrade (trade : FPMMRecord) : Option GTrade := do
  let amt ← trade.investmentAmount
  let wallet ← trade.buyer_id
  let question ← trade.market_question
  let ts ← trade.timestamp
  some ⟨wallet, amt / 1000000, question.take 50 ++ "...", ts⟩

/-- The whole processing loop of goldsky.py `update_display` (lines
145-153): a `KeyError` on any record propagates, so the batch yields no
trades at all (`none`) rather than a partial list. -/
def processTrades : List FPMMRecord → Option (List GTrade)
  | [] => some []
  | t :: ts =>
    match normalizeTrade t with
    | none => none
    | some v => (processTrades ts).map (v :: ·)

/-- Descending-by-`size_usd` order used by
`sorted(whale_trades, key=lambda x: x['size_usd'], reverse=True)`. -/
def descBySize (a b : GTrade) : Prop := b.size_usd ≤ a.size_usd

instance : DecidableRel descBySize := fun a b =>
  inferInstanceAs (Decidable (b.size_usd ≤ a.size_usd))

instance : IsTotal GTrade descBySize :=
  ⟨fun a b => le_total b.size_usd a.size_usd⟩

instance : IsTrans GTrade descBySize :=
  ⟨fun _ _ _ h1 h2 => le_trans h2 h1⟩

/-- The row-emitting skeleton of the display loop of goldsky.py
`update_display` (lines 162-172): a `displayed` counter starts at 0 and the
loop breaks once it reaches 10; otherwise the trade is added as a row. -/
def displayRows : Nat → List GTrade → List GTrade
  | _, [] => []
  | displayed, t :: ts =>
    if 10 ≤ displayed then [] else t :: displayRows (displayed + 1) ts

/-- The rows emitted by goldsky.py `update_display` for a given normalized
trade list: the loop runs over the list sorted descending by `size_usd`,
capped at 10 rows. No threshold test appears in this loop. -/
def update_display_rows (whale_trades : List GTrade) : List GTrade :=
  displayRows 0 (List.insertionSort descBySize whale_trades)

/-- The alert-dispatch effect of the same display loop (goldsky.py lines
162-178): inside the 10-row-capped loop, a trade with
`size_usd >= ALERT_THRESHOLD_USD` triggers `send_telegram_alert`. The sink
outcome is the `sink` argument (`true` = the call returned, `false` = it
raised); `send_telegram_alert` (lines 121-125) has no exception handler, so
a raising sink aborts the loop. Returns the trades on which the sink was
attempted, in order, and whether the loop completed without an escaping
exception. -/
def dispatchAlerts (sink : GTrade → Bool) : Nat → List GTrade → List GTrade × Bool
  | _, [] => ([], true)
  | displayed, t :: ts =>
    if 10 ≤ displayed then ([], true)
    else if ALERT_THRESHOLD_USD ≤ t.size_usd then
      if sink t then
        let r := dispatchAlerts sink (displayed + 1) ts
        (t :: r.1, r.2)
      else ([t], false)
    else dispatchAlerts sink (displayed + 1) ts

/-- Alert attempts of goldsky.py `update_display` on a normalized trade
list: the loop runs over the list sorted descending by `size_usd`. -/
def update_display_alerts (sink : GTrade → Bool) (whale_trades : List GTrade) :
    List GTrade × Bool :=
  dispatchAlerts sink 0 (List.insertionSort descBySize whale_trades)

/-- Sequential dispatch with fail-stop semantics, for stating how
`dispatchAlerts` actually behaves: attempt the sink on each trade in order;
on the first failing attempt, stop (the failing trade was still attempted)
and report incompletion. -/
def attemptsUntilFirstFailure (sink : GTrade → Bool) : List GTrade → List GTrade × Bool
  | [] => ([], true)
  | t :: ts =>
    if sink t then
      let r := attemptsUntilFirstFailure sink ts
      (t :: r.1, r.2)
    else ([t], false)

/-- The batch shape goldsky.py passes around:
`{'fixedProductMarketMakers': [...]}`. -/
structure GoldskyBatch where
  fixedProductMarketMakers : List FPMMRecord
deriving DecidableEq

/-- A decoded `LogInvestmentChanged` event as read by goldsky.py
`rpc_fallback_trades` (lines 102-113); `investmentAmount` is the raw
integer amount and `timestamp` the block timestamp rendered as a string. -/
structure RpcEvent where
  buyer : String
  investmentAmount : ℚ
  market : String
  timestamp : String
deriving DecidableEq

/-- goldsky.py `rpc_fallback_trades` (lines 79-119): the chain-log scan's
outcome is the `events` argument. On success it keeps events with
`size_usd = investmentAmount / 1e6 >= WHALE_THRESHOLD_USD` and rebuilds
subgraph-shaped records; its own `except` clause turns any failure into the
empty batch `{'fixedProductMarketMakers': []}`. -/
def rpc_fallback_trades (events : Except String (List RpcEvent)) : GoldskyBatch :=
  match events with
  | .error _ => ⟨[]⟩
  | .ok evs =>
    let whale_events := evs.filterMap fun event =>
      let size_usd := event.investmentAmount / 1000000
      if WHALE_THRESHOLD_USD ≤ size_usd then
        some (⟨some (size_usd * 1000000), some event.buyer,
               some ("Market " ++ event.market.take 10 ++ "..."), some event.timestamp⟩ : FPMMRecord)
      else none
    ⟨whale_events⟩

/-- goldsky.py `fetch_from_subgraph` (lines 61-77): the primary subgraph
execute's outcome is `primary`; on its failure the introspection probe
(whose outcome is `introspection`) is attempted purely for a diagnostic log
line — its own failure is swallowed by the bare `except: pass` — and the
result is whatever `rpc_fallback_trades` returns. The plain (non-`Except`)
result type records that no exception escapes this function. -/
def fetch_from_subgraph (primary : Except String GoldskyBatch)
    (introspection : Except String (List String))
    (fallback_events : Except String (List RpcEvent)) : GoldskyBatch :=
  match primary with
  | .ok result => result
  | .error _ =>
    let _diagnostic_fields :=
      match introspection with
      | .ok fields => fields.take 10
      | .error _ => []
    rpc_fallback_trades fallback_events

/-- Default of the `since` parameter of goldsky.py `track_whales`
(line 128): `int((time.time() - 86400) * 1000)`, with `now` the current
epoch time in seconds. -/
def default_since_goldsky (now : Nat) : Nat := (now - 86400) * 1000

/-- The subgraph-side `timestamp_gte: $timestamp` filter of the trade query
(goldsky.py line 32): a record with timestamp `ts` (epoch seconds) matches
when `since <= ts`. -/
def timestamp_gte (since ts : Nat) : Bool := decide (since ≤ ts)

/-! ## Helper lemmas -/

/-- The display loop with counter `d` emits exactly the first `10 - d`
trades of the remaining list. -/
theorem displayRows_eq_take (l : List GTrade) :
    ∀ d : Nat, displayRows d l = l.take (10 - d) := by
  induction l with
  | nil => intro d; simp [displayRows]
  | cons t ts ih =>
    intro d
    by_cases hd : 10 ≤ d
    · simp [displayRows, hd, Nat.sub_eq_zero_of_le hd]
    · have h10 : 10 - d = (10 - (d + 1)) + 1 := by omega
      simp [displayRows, hd, h10, ih]

/-- The alert effect of the display loop with counter `d` equals fail-stop
dispatch over the alert-qualifying trades among the first `10 - d`. -/
theorem dispatchAlerts_eq (sink : GTrade → Bool) (l : List GTrade) :
    ∀ d : Nat, dispatchAlerts sink d l =
      attemptsUntilFirstFailure sink
        ((l.take (10 - d)).filter fun t => decide (ALERT_THRESHOLD_USD ≤ t.size_usd)) := by
  induction l with
  | nil => intro d; simp [dispatchAlerts, attemptsUntilFirstFailure]
  | cons t ts ih =>
    intro d
    by_cases hd : 10 ≤ d
    · simp [dispatchAlerts, hd, Nat.sub_eq_zero_of_le hd, attemptsUntilFirstFailure]
    · have h10 : 10 - d = (10 - (d + 1)) + 1 := by omega
      by_cases hth : ALERT_THRESHOLD_USD ≤ t.size_usd
      · by_cases hs : sink t = true
        · simp [dispatchAlerts, hd, hth, hs, h10, List.filter_cons,
                attemptsUntilFirstFailure, ih]
        · simp [dispatchAlerts, hd, hth, hs, h10, List.filter_cons,
                attemptsUntilFirstFailure]
      · simp [dispatchAlerts, hd, hth, h10, List.filter_cons, ih]

/-- A record on which normalization raises makes the whole batch produce
nothing: the loop is `none` as soon as one record normalizes to `none`. -/
theorem processTrades_eq_none_of_mem (ts : List FPMMRecord) (r : FPMMRecord)
    (hr : r ∈ ts) (hnone : normalizeTrade r = none) : processTrades ts = none := by
  induction ts with
  | nil => cases hr
  | cons t ts ih =>
    rcases List.mem_cons.mp hr with rfl | hmem
    · simp [processTrades, hnone]
    · rcases hnt : normalizeTrade t with _ | v
      · simp [processTrades, hnt]
      · simp [processTrades, hnt, ih hmem]

/-- Invariants of one REST poll cycle (polymarket.py lines 46-56), by
induction on the fetched batch: (1) the seen set only grows; (2) every
fetched record's transaction hash ends up in the final seen set, threshold
or not; (3) every emitted trade was not seen at cycle start, is in the
final seen set, meets THRESHOLD_USD, and carries a hash taken verbatim from
some fetched record; (4) no hash is emitted twice within the cycle. -/
theorem pollCycle_invariants :
    ∀ (ts : List PolyRecord) (seen s' : List String) (em : List PolyTrade),
      pollCycle seen ts = some (s', em) →
        (∀ x ∈ seen, x ∈ s') ∧
        (∀ t ∈ ts, ∀ tx, t.transactionHash = some tx → tx ∈ s') ∧
        (∀ e ∈ em, e.tx ∉ seen ∧ e.tx ∈ s' ∧ THRESHOLD_USD ≤ e.usd_value ∧
          ∃ t ∈ ts, t.transactionHash = some e.tx) ∧
        (em.map PolyTrade.tx).Nodup := by
  intro ts
  induction ts with
  | nil =>
    intro seen s' em h
    simp only [pollCycle, Option.some.injEq, Prod.mk.injEq] at h
    obtain ⟨rfl, rfl⟩ := h
    simp
  | cons t ts ih =>
    intro seen s' em h
    rcases htx : t.transactionHash with _ | tx
    · simp [pollCycle, htx] at h
    · by_cases hmem : tx ∈ seen
      · simp only [pollCycle, htx, hmem, if_true] at h
        obtain ⟨ih1, ih2, ih3, ih4⟩ := ih seen s' em h
        refine ⟨ih1, ?_, ?_, ih4⟩
        · intro t' ht' tx' htx'
          rcases List.mem_cons.mp ht' with rfl | hmem'
          · rw [htx] at htx'; injection htx' with he; subst he
            exact ih1 tx hmem
          · exact ih2 t' hmem' tx' htx'
        · intro e he
          obtain ⟨hn, hs, hth, t', ht', htx'⟩ := ih3 e he
          exact ⟨hn, hs, hth, t', List.mem_cons_of_mem _ ht', htx'⟩
      · rcases hp : t.price with _ | p
        · simp [pollCycle, htx, hmem, hp] at h
        · rcases hsz : t.size with _ | s
          · simp [pollCycle, htx, hmem, hp, hsz] at h
          · rcases hrec : pollCycle (tx :: seen) ts with _ | ⟨s2, em2⟩
            · simp [pollCycle, htx, hmem, hp, hsz, hrec] at h
            · obtain ⟨ih1, ih2, ih3, ih4⟩ := ih (tx :: seen) s2 em2 hrec
              have hmono : ∀ x ∈ seen, x ∈ s2 := fun x hx =>
                ih1 x (List.mem_cons_of_mem _ hx)
              have htxs2 : tx ∈ s2 := ih1 tx (List.mem_cons_self _ _)
              have hfetched : ∀ t' ∈ t :: ts, ∀ tx', t'.transactionHash = some tx' → tx' ∈ s2 := by
                intro t' ht' tx' htx'
                rcases List.mem_cons.mp ht' with rfl | hmem'
                · rw [htx] at htx'; injection htx' with he; subst he; exact htxs2
                · exact ih2 t' hmem' tx' htx'
              have hem2 : ∀ e ∈ em2, e.tx ∉ seen ∧ e.tx ∈ s2 ∧ THRESHOLD_USD ≤ e.usd_value ∧
                  ∃ t' ∈ t :: ts, t'.transactionHash = some e.tx := by
                intro e he
                obtain ⟨hn, hs2, hth2, t', ht', htx'⟩ := ih3 e he
                exact ⟨fun hc => hn (List.mem_cons_of_mem _ hc), hs2, hth2,
                  t', List.mem_cons_of_mem _ ht', htx'⟩
              by_cases hth : THRESHOLD_USD ≤ p * s
              · simp only [pollCycle, htx, hmem, hp, hsz, hrec, hth, if_true, if_false,
                  Option.some.injEq, Prod.mk.injEq] at h
                obtain ⟨rfl, rfl⟩ := h
                refine ⟨hmono, hfetched, ?_, ?_⟩
                · intro e he
                  rcases List.mem_cons.mp he with rfl | hmem'
                  · exact ⟨hmem, htxs2, hth, t, List.mem_cons_self _ _, htx⟩
                  · exact hem2 e hmem'
                · simp only [List.map_cons, List.nodup_cons]
                  refine ⟨?_, ih4⟩
                  intro hc
                  obtain ⟨e, he, hetx⟩ := List.mem_map.mp hc
                  obtain ⟨hn, _, _, _⟩ := ih3 e he
                  exact hn (hetx ▸ List.mem_cons_self tx seen)
              · simp only [pollCycle, htx, hmem, hp, hsz, hrec, hth, if_true, if_false,
                  Option.some.injEq, Prod.mk.injEq] at h
                obtain ⟨rfl, rfl⟩ := h
                exact ⟨hmono, hfetched, hem2, ih4⟩

/-- A record's trace through the single poll step: if a record's
transaction hash is missing, the whole REST cycle aborts (the `KeyError`
propagates out of the `for` loop). -/
theorem pollCycle_eq_none_of_missing_tx :
    ∀ (ts : List PolyRecord) (seen : List String) (t : PolyRecord), t ∈ ts →
      t.transactionHash = none → pollCycle seen ts = none := by
  intro ts
  induction ts with
  | nil => intro seen t ht; cases ht
  | cons hd ts ih =>
    intro seen t ht hnone
    rcases List.mem_cons.mp ht with rfl | hmem
    · simp [pollCycle, hnone]
    · rcases htx : hd.transactionHash with _ | tx
      · simp [pollCycle, htx]
      · by_cases hm : tx ∈ seen
        · simp [pollCycle, htx, hm, ih seen t hmem hnone]
        · rcases hp : hd.price with _ | p
          · rcases hs : hd.size with _ | s
            · simp [pollCycle, htx, hm, hp, hs]
            · simp [pollCycle, htx, hm, hp, hs]
          · rcases hs : hd.size with _ | s
            · simp [pollCycle, htx, hm, hp, hs]
            · simp [pollCycle, htx, hm, hp, hs, ih (tx :: seen) t hmem hnone]

/-- Every trade returned by main.py's `fetch_whale_trades` passed the
`amount >= WHALE_THRESHOLD_USD` test. -/
theorem fetch_whale_trades_mem_threshold (m : String) (st : Nat) (l : List GraphTrade)
    (t : Whale) (ht : t ∈ fetch_whale_trades m st l) :
    WHALE_THRESHOLD_USD ≤ t.amount_usd := by
  simp only [fetch_whale_trades] at ht
  have ht2 := List.mem_of_mem_take ht
  rw [List.mem_insertionSort] at ht2
  obtain ⟨raw, _, heq⟩ := List.mem_filterMap.mp ht2
  by_cases hc : WHALE_THRESHOLD_USD ≤ raw.amount
  · rw [if_pos hc] at heq
    injection heq with he
    subst he
    exact hc
  · rw [if_neg hc] at heq
    cases heq

/-! ## Claims -/

/-- C1 (corrected): main.py's `fetch_whale_trades` does return a sequence
sorted non-increasing by notional, thresholded at WHALE_THRESHOLD_USD and
capped at 10; goldsky.py's display loop returns a sequence sorted
non-increasing and capped at 10, but applies no threshold test of its own —
its output is thresholded only when its input already is (the threshold is
enforced upstream, in the subgraph query or the RPC fallback). -/
theorem C1_filter_rank_cap :
    (∀ (m : String) (st : Nat) (l : List GraphTrade),
        List.Sorted descByAmount (fetch_whale_trades m st l) ∧
        (∀ t ∈ fetch_whale_trades m st l, WHALE_THRESHOLD_USD ≤ t.amount_usd) ∧
        (fetch_whale_trades m st l).length ≤ 10) ∧
    (∀ l : List GTrade,
        List.Sorted descBySize (update_display_rows l) ∧
        (update_display_rows l).length ≤ 10 ∧
        ((∀ t ∈ l, WHALE_THRESHOLD_USD ≤ t.size_usd) →
          ∀ t ∈ update_display_rows l, WHALE_THRESHOLD_USD ≤ t.size_usd)) := by
  constructor
  · intro m st l
    refine ⟨?_, fun t ht => fetch_whale_trades_mem_threshold m st l t ht, ?_⟩
    · simp only [fetch_whale_trades]
      exact List.Pairwise.sublist (List.take_sublist _ _)
        (List.sorted_insertionSort descByAmount _)
    · simp only [fetch_whale_trades]
      exact List.length_take_le _ _
  · intro l
    have key : update_display_rows l = (List.insertionSort descBySize l).take 10 := by
      simpa using displayRows_eq_take (List.insertionSort descBySize l) 0
    refine ⟨?_, ?_, ?_⟩
    · rw [key]
      exact List.Pairwise.sublist (List.take_sublist _ _)
        (List.sorted_insertionSort descBySize _)
    · rw [key]
      exact List.length_take_le _ _
    · intro hall t ht
      rw [key] at ht
      exact hall t ((List.mem_insertionSort _).mp (List.mem_of_mem_take ht))

/-- C1 counterexample: the goldsky display loop emits a trade of notional 1,
far below WHALE_THRESHOLD_USD, when such a trade reaches it — no client-side
threshold filter exists in the loop. -/
theorem C1_counterexample :
    update_display_rows [⟨"0xlow", 1, "m...", "1"⟩] = [⟨"0xlow", 1, "m...", "1"⟩] ∧
    ¬ WHALE_THRESHOLD_USD ≤ (1 : ℚ) := by
  exact ⟨by decide, by decide⟩

/-- C1 witness: the conditional threshold clause of the goldsky half,
discharged at a concrete all-above-threshold input. -/
theorem C1_filter_rank_cap_witness :
    WHALE_THRESHOLD_USD ≤ GTrade.size_usd ⟨"0xa", 60000, "q...", "1"⟩ :=
  (C1_filter_rank_cap.2 [⟨"0xa", 60000, "q...", "1"⟩]).2.2 (by decide)
    ⟨"0xa", 60000, "q...", "1"⟩ (by decide)

/-- C3 (confirmed): when the primary subgraph fetch fails,
`fetch_from_subgraph` returns exactly the batch of `rpc_fallback_trades`,
its result does not depend on the outcome of the best-effort introspection
probe (whose failure is swallowed), and when the fallback also fails the
result is the empty batch; the plain return type of the embedding records
that no exception escapes the function. -/
theorem C3_router_fallback (e : String) (intro1 intro2 : Except String (List String))
    (fallback_events : Except String (List RpcEvent)) :
    fetch_from_subgraph (.error e) intro1 fallback_events =
      rpc_fallback_trades fallback_events ∧
    fetch_from_subgraph (.error e) intro1 fallback_events =
      fetch_from_subgraph (.error e) intro2 fallback_events ∧
    ∀ e2 : String, fetch_from_subgraph (.error e) intro1 (.error e2) = ⟨[]⟩ :=
  ⟨rfl, rfl, fun _ => rfl⟩

/-- C4 (code bug): the default of `since` is `int((now - lookback) * 1000)`
— a value in *milliseconds* — while the subgraph `timestamp_gte` filter it
feeds compares against epoch-second record timestamps. At epoch time
1760227200 the goldsky default is 1760140800000, which is not
`now - 86400 = 1760140800`, and the resulting filter rejects even a record
stamped at `now` itself, so the query matches nothing. -/
theorem C4_since_default_unit :
    default_since_goldsky 1760227200 = 1760140800000 ∧
    default_since_goldsky 1760227200 ≠ 1760227200 - 86400 ∧
    default_since_main 1760227200 = 1760223600000 ∧
    timestamp_gte (default_since_goldsky 1760227200) 1760227200 = false := by
  refine ⟨rfl, by decide, rfl, by decide⟩

/-- C8 (confirmed): goldsky normalization computes
`usd_notional = raw_integer_amount / 10^6` — in particular a raw amount of
60000000000 normalizes to 60000 USD — and the REST path computes
`usd_notional = price * size`, so price 0.50 with size 20000 yields 10000
USD (witness). -/
theorem C8_notional_scale :
    (∀ (a : ℚ) (w q ts : String),
        (normalizeTrade ⟨some a, some w, some q, some ts⟩).map GTrade.size_usd
          = some (a / 1000000)) ∧
    (normalizeTrade ⟨some 60000000000, some "0xwhale", some "q", some "100"⟩).map
        GTrade.size_usd = some 60000 ∧
    ∀ (p s : ℚ) (tx : String), THRESHOLD_USD ≤ p * s →
      pollCycle [] [⟨some tx, some p, some s⟩] = some ([tx], [⟨tx, p * s⟩]) := by
  refine ⟨fun a w q ts => rfl, by norm_num [normalizeTrade], ?_⟩
  intro p s tx h
  simp [pollCycle, h]

/-- C8 witness: the REST clause at price 1/2 and size 20000 gives notional
10000, which passes THRESHOLD_USD. -/
theorem C8_notional_scale_witness :
    pollCycle [] [⟨some "0xabc", some (1/2), some 20000⟩] =
      some (["0xabc"], [⟨"0xabc", (10000 : ℚ)⟩]) :=
  (C8_notional_scale.2.2 (1/2) 20000 "0xabc" (by norm_num [THRESHOLD_USD])).trans
    (by norm_num [PolyTrade.mk.injEq])

/-- C2 (confirmed): the REST loop checks and inserts the seen set per
record in one pass, so a transaction hash occurring twice — within one
batch or across two consecutive cycles fed the carried-over seen set — is
emitted at most once: the hashes of all emissions of two chained cycles are
pairwise distinct. -/
theorem C2_dedup_at_most_once (seen s1 s2 : List String) (ts1 ts2 : List PolyRecord)
    (em1 em2 : List PolyTrade)
    (h1 : pollCycle seen ts1 = some (s1, em1))
    (h2 : pollCycle s1 ts2 = some (s2, em2)) :
    ((em1 ++ em2).map PolyTrade.tx).Nodup := by
  obtain ⟨_, _, hem1, hnd1⟩ := pollCycle_invariants ts1 seen s1 em1 h1
  obtain ⟨_, _, hem2, hnd2⟩ := pollCycle_invariants ts2 s1 s2 em2 h2
  rw [List.map_append]
  refine List.Nodup.append hnd1 hnd2 ?_
  intro x hx1 hx2
  obtain ⟨e1, he1, rfl⟩ := List.mem_map.mp hx1
  obtain ⟨e2, he2, hx⟩ := List.mem_map.mp hx2
  exact (hem2 e2 he2).1 (by rw [hx]; exact (hem1 e1 he1).2.1)

/-- C2 witness: the same record fed twice in cycle one and once more in
cycle two yields a single emission overall. -/
theorem C2_dedup_at_most_once_witness :
    ((([⟨"0xabc", (10000 : ℚ)⟩] : List PolyTrade) ++ []).map PolyTrade.tx).Nodup :=
  C2_dedup_at_most_once [] ["0xabc"] ["0xabc"]
    [⟨some "0xabc", some 1, some 10000⟩, ⟨some "0xabc", some 1, some 10000⟩]
    [⟨some "0xabc", some 1, some 10000⟩]
    [⟨"0xabc", 10000⟩] []
    (by norm_num [pollCycle, THRESHOLD_USD, PolyTrade.mk.injEq])
    (by simp [pollCycle])

/-- C5 counterexample: three trades qualify for an alert, the sink raises
on the second, and the loop attempts only two dispatches — the third
qualifying trade is never attempted, contradicting both "exactly once per
qualifying trade" and "one failure must not prevent the rest". -/
theorem C5_counterexample :
    ((update_display_alerts (fun t => t.wallet != "0xb")
        [⟨"0xa", 300000, "m", "3"⟩, ⟨"0xb", 200000, "m", "2"⟩,
         ⟨"0xc", 150000, "m", "1"⟩]).1).length = 2 ∧
    (([⟨"0xa", 300000, "m", "3"⟩, ⟨"0xb", 200000, "m", "2"⟩,
        ⟨"0xc", 150000, "m", "1"⟩] : List GTrade).filter
        (fun t => decide (ALERT_THRESHOLD_USD ≤ t.size_usd))).length = 3 ∧
    (⟨"0xc", 150000, "m", "1"⟩ : GTrade) ∉
      (update_display_alerts (fun t => t.wallet != "0xb")
        [⟨"0xa", 300000, "m", "3"⟩, ⟨"0xb", 200000, "m", "2"⟩,
         ⟨"0xc", 150000, "m", "1"⟩]).1 :=
  ⟨by decide, by decide, by decide⟩

/-- C5 (corrected): the dispatch step attempts the sink once per trade with
`size_usd >= ALERT_THRESHOLD_USD` among the first 10 trades in sorted
(descending) order only, in that order, and stops at the first sink
failure: the failing call is the last attempt and the raised error
propagates (`send_telegram_alert` has no handler), so later qualifying
trades are not attempted. -/
theorem C5_dispatch_fail_stop (sink : GTrade → Bool) (whale_trades : List GTrade) :
    update_display_alerts sink whale_trades =
      attemptsUntilFirstFailure sink
        (((List.insertionSort descBySize whale_trades).take 10).filter
          fun t => decide (ALERT_THRESHOLD_USD ≤ t.size_usd)) := by
  have h := dispatchAlerts_eq sink (List.insertionSort descBySize whale_trades) 0
  simpa [update_display_alerts] using h

/-- C6 counterexample: a raw record with a negative integer amount
normalizes to a trade of negative notional, and a REST record whose
transaction hash is the empty string is emitted with an empty identifier. -/
theorem C6_counterexample :
    (normalizeTrade ⟨some (-1000000), some "0xneg", some "q", some "1"⟩).map
        GTrade.size_usd = some (-1) ∧
    ¬ (0 : ℚ) ≤ (-1 : ℚ) ∧
    pollCycle [] [⟨some "", some 1, some 10000⟩] = some ([""], [⟨"", 10000⟩]) ∧
    ("" : String).length = 0 :=
  ⟨by norm_num [normalizeTrade], by norm_num,
   by norm_num [pollCycle, THRESHOLD_USD, PolyTrade.mk.injEq], rfl⟩

/-- C6 (corrected): normalized notionals are non-negative provided every
raw amount is non-negative (the sign passes through unclamped); main.py's
and polymarket.py's emitted trades even satisfy their thresholds, hence are
positive. The normalized records of goldsky.py/main.py carry no id field at
all; the REST path's identifier is the raw `transactionHash` verbatim, so
it is non-empty only when the raw field is. -/
theorem C6_nonneg_and_id :
    (∀ (r : FPMMRecord) (t : GTrade), normalizeTrade r = some t →
        (∀ a, r.investmentAmount = some a → 0 ≤ a) → 0 ≤ t.size_usd) ∧
    (∀ (m : String) (st : Nat) (l : List GraphTrade), ∀ t ∈ fetch_whale_trades m st l,
        WHALE_THRESHOLD_USD ≤ t.amount_usd) ∧
    (∀ (seen s' : List String) (ts : List PolyRecord) (em : List PolyTrade),
        pollCycle seen ts = some (s', em) →
        ∀ e ∈ em, THRESHOLD_USD ≤ e.usd_value ∧
          ∃ t ∈ ts, t.transactionHash = some e.tx) := by
  refine ⟨?_, fun m st l t ht => fetch_whale_trades_mem_threshold m st l t ht, ?_⟩
  · intro r t hnorm hnn
    obtain ⟨ia, ib, iq, it⟩ := r
    rcases ia with _ | a
    · simp [normalizeTrade] at hnorm
    · rcases ib with _ | w
      · simp [normalizeTrade] at hnorm
      · rcases iq with _ | q
        · simp [normalizeTrade] at hnorm
        · rcases it with _ | ts
          · simp [normalizeTrade] at hnorm
          · injection hnorm with h
            subst h
            exact div_nonneg (hnn a rfl) (by norm_num)
  · intro seen s' ts em h e he
    obtain ⟨_, _, hem, _⟩ := pollCycle_invariants ts seen s' em h
    obtain ⟨_, _, hth, hprov⟩ := hem e he
    exact ⟨hth, hprov⟩

/-- C6 witness: all three clauses instantiated — a 60000000000-raw-amount
record normalizes to notional 60000 which is non-negative, a 50000-USD
trade survives main.py's filter at its threshold, and an emitted REST trade
of notional 10000 meets THRESHOLD_USD. -/
theorem C6_nonneg_and_id_witness :
    (0 : ℚ) ≤ GTrade.size_usd ⟨"0xwhale", 60000, "q".take 50 ++ "...", "100"⟩ ∧
    WHALE_THRESHOLD_USD ≤ Whale.amount_usd ⟨"0xa", 50000, "q...", "1"⟩ ∧
    THRESHOLD_USD ≤ PolyTrade.usd_value ⟨"0xw", 10000⟩ :=
  ⟨C6_nonneg_and_id.1 ⟨some 60000000000, some "0xwhale", some "q", some "100"⟩
      ⟨"0xwhale", 60000, "q".take 50 ++ "...", "100"⟩ (by norm_num [normalizeTrade])
      (by intro a ha; injection ha with h; subst h; norm_num),
   C6_nonneg_and_id.2.1 "all" 0 [⟨50000, "0xa", "q", "1"⟩] ⟨"0xa", 50000, "q...", "1"⟩
      (by set_option maxRecDepth 10000 in decide),
   (C6_nonneg_and_id.2.2 [] ["0xw"] [⟨some "0xw", some 2, some 5000⟩] [⟨"0xw", 10000⟩]
      (by norm_num [pollCycle, THRESHOLD_USD, PolyTrade.mk.injEq])
      ⟨"0xw", 10000⟩ (List.mem_cons_self _ _)).1⟩

/-- C7 counterexample: a batch holding a record without `investmentAmount`
followed by a perfectly normalizable record produces no trades at all — the
second record is lost with the first, instead of the first being dropped
individually. -/
theorem C7_counterexample :
    processTrades [⟨none, some "0xbad", some "qb", some "2"⟩,
                   ⟨some 60000000000, some "0xgood", some "qg", some "3"⟩] = none ∧
    (normalizeTrade ⟨some 60000000000, some "0xgood", some "qg", some "3"⟩).isSome
      = true :=
  ⟨rfl, rfl⟩

/-- C7 (corrected): a record lacking a required field does not get dropped
individually — there is no per-record handler, so the `KeyError` aborts the
whole batch: goldsky normalization of any batch containing a failing record
is `none`, and a REST batch containing a record without `transactionHash`
makes the whole poll cycle fail. -/
theorem C7_missing_field_aborts_batch :
    (∀ (ts : List FPMMRecord) (r : FPMMRecord), r ∈ ts → normalizeTrade r = none →
        processTrades ts = none) ∧
    (∀ (seen : List String) (ts : List PolyRecord) (t : PolyRecord), t ∈ ts →
        t.transactionHash = none → pollCycle seen ts = none) :=
  ⟨fun ts r hr hn => processTrades_eq_none_of_mem ts r hr hn,
   fun seen ts t ht hn => pollCycle_eq_none_of_missing_tx ts seen t ht hn⟩

/-- C7 witness: both clauses at singleton batches whose only record lacks a
required field. -/
theorem C7_missing_field_aborts_batch_witness :
    processTrades [⟨none, some "0xb", some "q", some "1"⟩] = none ∧
    pollCycle [] [⟨none, some 1, some 2⟩] = none :=
  ⟨C7_missing_field_aborts_batch.1 [⟨none, some "0xb", some "q", some "1"⟩]
      ⟨none, some "0xb", some "q", some "1"⟩ (List.mem_cons_self _ _) rfl,
   C7_missing_field_aborts_batch.2 [] [⟨none, some 1, some 2⟩]
      ⟨none, some 1, some 2⟩ (List.mem_cons_self _ _) rfl⟩

/-- C9 (confirmed): every fetched record's hash is inserted into the seen
set whether or not its notional meets the display threshold, the seen set
only grows, and no record bearing that hash is emitted in the following
cycle — so a trade first fetched below the threshold is never printed
later, even when the identical record is fetched again. -/
theorem C9_below_threshold_never_printed (seen s1 s2 : List String)
    (ts1 ts2 : List PolyRecord) (em1 em2 : List PolyTrade) (t : PolyRecord) (tx : String)
    (h1 : pollCycle seen ts1 = some (s1, em1)) (ht : t ∈ ts1)
    (htx : t.transactionHash = some tx)
    (h2 : pollCycle s1 ts2 = some (s2, em2)) :
    tx ∈ s1 ∧ (∀ x ∈ s1, x ∈ s2) ∧ ∀ e ∈ em2, e.tx ≠ tx := by
  obtain ⟨_, hf1, _, _⟩ := pollCycle_invariants ts1 seen s1 em1 h1
  obtain ⟨hmono2, _, hem2, _⟩ := pollCycle_invariants ts2 s1 s2 em2 h2
  have htxs1 : tx ∈ s1 := hf1 t ht tx htx
  refine ⟨htxs1, hmono2, ?_⟩
  intro e he hc
  exact (hem2 e he).1 (by rw [hc]; exact htxs1)

/-- C9 witness: a record of notional 5 (below THRESHOLD_USD) fetched in two
consecutive cycles — its hash lands in the seen set after cycle one. -/
theorem C9_below_threshold_never_printed_witness : ("0xdef" : String) ∈ ["0xdef"] :=
  (C9_below_threshold_never_printed [] ["0xdef"] ["0xdef"]
    [⟨some "0xdef", some 1, some 5⟩] [⟨some "0xdef", some 1, some 5⟩] [] []
    ⟨some "0xdef", some 1, some 5⟩ "0xdef"
    (by norm_num [pollCycle, THRESHOLD_USD])
    (List.mem_cons_self _ _) rfl
    (by simp [pollCycle])).1

/-- C10 (confirmed): `fetch_whale_trades` never reads its `market_id`
parameter, so for the same `since_ts` and the same upstream response the
result is identical under any two market filters. -/
theorem C10_market_filter_irrelevant (m₁ m₂ : String) (since_ts : Nat)
    (result_trades : List GraphTrade) :
    fetch_whale_trades m₁ since_ts result_trades =
      fetch_whale_trades m₂ since_ts result_trades := rfl

end Tracker
